import Mathlib

/-!
# Simple-Automata: verification of the specification against the source

Shallow embedding of the Simple-Automata cellular-automaton engine
(`src/grid.rs`, `src/condition.rs`, `src/pattern.rs`, `src/ruleset.rs`,
`src/material.rs`, `src/id.rs`, `src/main.rs`).

Modelling conventions:
* Rust `u32` / `u8` / `usize` values are `Nat`; wrap-around is written
  explicitly (`% 256`, `% 18446744073709551616`) exactly where the source
  performs wrapping machine arithmetic (release-profile semantics of an
  overflowing `+`, and `usize::wrapping_add_signed`).
* `Vec<T>` is `List T`, `Option<T>` is `Option T`.
* Strings handled by the hand-written serde visitors are `List Char`;
  byte-position arguments (the `split_at(v.len() - 1)` of the Pattern
  visitor) are mapped to character positions through the UTF-8 size of the
  final character, so the char-boundary panic of `str::split_at` is kept.
  Every string the program itself produces for those visitors is ASCII.
* The identifier newtype `UniqueId<T>` carries no data besides its `u32`,
  so handles are bare `Nat`s here.
* `Rule.conditions` holds the `Condition` of `src/condition.rs` (the one
  with the `inverted` field): that is the type `main.rs` pushes into rules
  and the type the grid tests construct.  (`ruleset.rs` still contains a
  stale pre-refactor copy of `Condition` that nothing constructs.)
-/

namespace SimpleAutomata

/-- Model of `Cell` from `src/grid.rs`: a single material handle. -/
structure Cell where
  material_id : Nat
deriving DecidableEq, Repr

/-- Model of `MaterialColor` from `src/material.rs`; components are `u8` values. -/
structure MaterialColor where
  r : Nat
  g : Nat
  b : Nat
deriving DecidableEq, Repr

/-- Model of `Material` from `src/material.rs`. -/
structure Material where
  id : Nat
  name : String
  color : MaterialColor
deriving DecidableEq, Repr

/-- Model of `MaterialGroup` from `src/material.rs`. -/
structure MaterialGroup where
  id : Nat
  name : String
  materials : List Nat
deriving DecidableEq, Repr

/-- Model of `Pattern` from `src/pattern.rs`. -/
inductive Pattern where
  | Material (id : Nat)
  | Group (id : Nat)
deriving DecidableEq, Repr

/-- Model of `Operator` from `src/condition.rs`; payloads are `u8` values. -/
inductive Operator where
  | List (vec : List Nat)
  | Greater (bound : Nat)
  | Less (bound : Nat)
deriving DecidableEq, Repr

/-- Model of `Direction` from `src/condition.rs`. -/
inductive Direction where
  | Northwest
  | North
  | Northeast
  | West
  | East
  | Southwest
  | South
  | Southeast
deriving DecidableEq, Repr

/-- Model of `ConditionVariant` from `src/condition.rs`. -/
inductive ConditionVariant where
  | Directional (dirs : List Direction)
  | Count (op : Operator)
deriving DecidableEq, Repr

/-- Model of `Condition` from `src/condition.rs` (the live version, with `inverted`). -/
structure Condition where
  variant : ConditionVariant
  pattern : Pattern
  inverted : Bool
deriving DecidableEq, Repr

/-- Model of `Rule` from `src/ruleset.rs`. -/
structure Rule where
  input : Pattern
  output : Nat
  conditions : List Condition
deriving DecidableEq, Repr

/-- Model of `Ruleset` from `src/ruleset.rs` (`materials` is the `MaterialMap` newtype
over `Vec<Material>`, modelled as the bare list). -/
structure Ruleset where
  name : String
  rules : List Rule
  materials : List Material
  groups : List MaterialGroup
deriving DecidableEq, Repr

/-- Model of `CellNeighbors` from `src/grid.rs`: the `[Option<Cell>; 8]` array, one
field per entry, in the order the array literal of `Grid::neighbors` fills
it: NW, N, NE, W, E, SW, S, SE. -/
structure CellNeighbors where
  nw : Option Cell
  n : Option Cell
  ne : Option Cell
  w : Option Cell
  e : Option Cell
  sw : Option Cell
  s : Option Cell
  se : Option Cell
deriving DecidableEq, Repr

/-- Model of `Grid` from `src/grid.rs`. -/
structure Grid where
  ruleset : Ruleset
  cells : List Cell
  size : Nat
deriving DecidableEq, Repr

/-- Model of `Operator::contains` from `src/condition.rs`.  `bound + 1` is `u8`
arithmetic: in the release profile an overflowing add wraps modulo 256
(written explicitly here); in the debug profile it would be a panic. -/
def Operator.contains (op : Operator) (element : Nat) : Bool :=
  match op with
  | .List vec => vec.contains element
  | .Greater bound => decide ((bound + 1) % 256 ≤ element ∧ element ≤ 8)
  | .Less bound => decide (element < bound)

/-- Model of `Ruleset::group` from `src/ruleset.rs`. -/
def Ruleset.group (rs : Ruleset) (id : Nat) : Option MaterialGroup :=
  rs.groups.find? (fun g => g.id == id)

/-- Model of `MaterialGroup::contains` from `src/material.rs`. -/
def MaterialGroup.contains (g : MaterialGroup) (id : Nat) : Bool :=
  g.materials.contains id

/-- Model of `Pattern::matches` from `src/pattern.rs`. -/
def Pattern.matches (p : Pattern) (rs : Ruleset) (target : Cell) : Bool :=
  match p with
  | .Material id => id == target.material_id
  | .Group id => (rs.group id).any (fun g => g.contains target.material_id)

/-- The entries of the neighbor array in array order (used by the `for`
loop of `CellNeighbors::count_matching`). -/
def CellNeighbors.toList (ns : CellNeighbors) : List (Option Cell) :=
  [ns.nw, ns.n, ns.ne, ns.w, ns.e, ns.sw, ns.s, ns.se]

/-- Model of `CellNeighbors::count_matching` from `src/grid.rs`: count the entries
that exist and whose cell the pattern matches.  The running count is a `u8`
but never exceeds 8, so plain `Nat` counting is exact. -/
def CellNeighbors.count_matching (ns : CellNeighbors) (rs : Ruleset) (p : Pattern) : Nat :=
  ns.toList.countP (fun cell => cell.any (fun c => p.matches rs c))

/-- Model of `CellNeighbors::in_direction` from `src/grid.rs`. -/
def CellNeighbors.in_direction (ns : CellNeighbors) (d : Direction) : Option Cell :=
  match d with
  | .Northwest => ns.nw
  | .North => ns.n
  | .Northeast => ns.ne
  | .West => ns.w
  | .East => ns.e
  | .Southwest => ns.sw
  | .South => ns.s
  | .Southeast => ns.se

/-- Model of `Condition::matches` from `src/condition.rs` (lines 215–226).  Note that
the function never reads `self.inverted`. -/
def Condition.matches (c : Condition) (neighbors : CellNeighbors) (rs : Ruleset) : Bool :=
  match c.variant with
  | .Directional dirs =>
      dirs.any (fun dir =>
        (neighbors.in_direction dir).any (fun cell => c.pattern.matches rs cell))
  | .Count counts => counts.contains (neighbors.count_matching rs c.pattern)

/-- Model of `Grid::cell_index` from `src/grid.rs`. -/
def Grid.cell_index (g : Grid) (x y : Nat) : Nat :=
  y * g.size + x

/-- Model of `Grid::cell_at` from `src/grid.rs`: `self.cells.get(self.cell_index(x, y)).copied()`. -/
def Grid.cell_at (g : Grid) (x y : Nat) : Option Cell :=
  g.cells.get? (g.cell_index x y)

/-- Model of `Grid::cell_coordinates` from `src/grid.rs`. -/
def Grid.cell_coordinates (g : Grid) (index : Nat) : Nat × Nat :=
  (index % g.size, index / g.size)

/-- Model of `usize::wrapping_add_signed` (used by `Grid::get_neighbor`): two's
complement wrap-around addition on a 64-bit `usize`. -/
def usizeWrapAddSigned (x : Nat) (offset : Int) : Nat :=
  (((x : Int) + offset) % (18446744073709551616 : Int)).toNat

/-- Model of `Grid::get_neighbor` from `src/grid.rs`. -/
def Grid.get_neighbor (g : Grid) (index : Nat) (x_offset y_offset : Int) : Option Cell :=
  let x := usizeWrapAddSigned (g.cell_coordinates index).1 x_offset
  let y := usizeWrapAddSigned (g.cell_coordinates index).2 y_offset
  if g.size ≤ x ∨ g.size ≤ y then none
  else g.cell_at x y

/-- Model of `Grid::neighbors` from `src/grid.rs`: the eight `get_neighbor` calls in
source order (NW, N, NE, W, E, SW, S, SE). -/
def Grid.neighbors (g : Grid) (index : Nat) : CellNeighbors :=
  { nw := g.get_neighbor index (-1) (-1)
    n := g.get_neighbor index 0 (-1)
    ne := g.get_neighbor index 1 (-1)
    w := g.get_neighbor index (-1) 0
    e := g.get_neighbor index 1 0
    sw := g.get_neighbor index (-1) 1
    s := g.get_neighbor index 0 1
    se := g.get_neighbor index 1 1 }

/-- Model of `Rule::transformed` from `src/ruleset.rs` (lines 140–152). -/
def Rule.transformed (r : Rule) (g : Grid) (cell : Cell) (index : Nat) : Option Cell :=
  if !(r.input.matches g.ruleset cell) then none
  else if !(r.conditions.all (fun condition => condition.matches (g.neighbors index) g.ruleset))
    then none
  else some (Cell.mk r.output)

/-- Model of `Grid::next_generation` from `src/grid.rs` (lines 86–100): build the new
cell vector from the old one (`find_map` returns the first rule's output),
then replace `self.cells`. -/
def Grid.next_generation (g : Grid) : Grid :=
  { g with
    cells := g.cells.enum.map (fun ic =>
      (g.ruleset.rules.findSome? (fun rule => rule.transformed g ic.2 ic.1)).getD ic.2) }

/-- Model of `MaterialMap::remove` from `src/material.rs` (lines 303–307): remove the
first element whose id matches, with no further checks. -/
def MaterialMap.remove (materials : List Material) (id : Nat) : List Material :=
  match materials.findIdx? (fun m => m.id == id) with
  | some index => materials.eraseIdx index
  | none => materials


/-! ## Concrete fixtures used by counterexamples and witnesses -/

/-- A ruleset with a single material and no groups or rules. -/
def rsPlain : Ruleset :=
  { name := "T", rules := [], materials := [⟨0, "Empty", ⟨0, 0, 0⟩⟩], groups := [] }

/-- The all-absent neighborhood (every neighbor off-grid). -/
def nsEmpty : CellNeighbors :=
  ⟨none, none, none, none, none, none, none, none⟩

/-- Four distinct cells for a 2×2 grid. -/
def cellA : Cell := ⟨10⟩
def cellB : Cell := ⟨11⟩
def cellC : Cell := ⟨12⟩
def cellD : Cell := ⟨13⟩

/-- A 2×2 grid over `rsPlain` with four distinct cells. -/
def gridTwo : Grid :=
  { ruleset := rsPlain, cells := [cellA, cellB, cellC, cellD], size := 2 }

/-! ## C1 — the `inverted` flag -/

/-- C1: the claim says the effective result of evaluating a condition is the
raw variant/pattern match XOR `inverted`, and that flipping `inverted` flips
the result on every neighborhood.  The code contradicts it:
`Condition::matches` never reads `self.inverted` (the flag is only toggled by
the `ConditionEvent::Inverted` handler and drawn in the editor).  At the
concrete input below the raw match is `true` and `inverted` is `true`, so the
claimed effective result is `false`, yet evaluation returns `true`; flipping
`inverted` returns `true` again instead of the opposite. -/
theorem c1_matches_ignores_inverted :
    Condition.matches ⟨.Count (.List [0]), .Material 0, true⟩ nsEmpty rsPlain = true
    ∧ Condition.matches ⟨.Count (.List [0]), .Material 0, false⟩ nsEmpty rsPlain = true := by
  decide

/-! ## C3 — Count operator semantics -/

/-- C3 counterexample: with bound `b = 255` and match count `k = 0` (the
all-absent neighborhood), `Operator::contains` computes `bound + 1` in `u8`,
which wraps to `0`, so `Greater(255)` matches even though `255 < 0` is false
(in a debug build the same addition panics instead). -/
theorem c3_greater_255_counterexample :
    nsEmpty.count_matching rsPlain (.Material 0) = 0
    ∧ Operator.contains (.Greater 255) (nsEmpty.count_matching rsPlain (.Material 0)) = true
    ∧ ¬(255 < nsEmpty.count_matching rsPlain (.Material 0)) := by
  decide

/-- C3 (amended): letting `k ≤ 8` be the number of existing neighbors whose
cell the pattern matches, `List(vs)` matches iff `k ∈ vs`, `Less(b)` matches
iff `k < b` for every `u8` bound, and `Greater(b)` matches iff `b < k ≤ 8`
for every bound `b ≤ 254`; for `b = 255` the computation `bound + 1` wraps to
`0` (release profile; a debug build panics), so `Greater(255)` matches every
`k ≤ 8` — i.e. always.  Evaluation returns a boolean in all cases. -/
theorem c3_count_operator_semantics (rs : Ruleset) (ns : CellNeighbors) (p : Pattern)
    (vs : List Nat) (b : Nat) :
    ns.count_matching rs p ≤ 8
    ∧ Operator.contains (.List vs) (ns.count_matching rs p)
        = vs.contains (ns.count_matching rs p)
    ∧ Operator.contains (.Less b) (ns.count_matching rs p)
        = decide (ns.count_matching rs p < b)
    ∧ (b ≤ 254 →
        Operator.contains (.Greater b) (ns.count_matching rs p)
          = decide (b < ns.count_matching rs p ∧ ns.count_matching rs p ≤ 8))
    ∧ Operator.contains (.Greater 255) (ns.count_matching rs p) = true := by
  have hk : ns.count_matching rs p ≤ 8 := by
    have := List.countP_le_length
      (l := ns.toList) (p := fun cell => cell.any (fun c => p.matches rs c))
    simpa [CellNeighbors.count_matching, CellNeighbors.toList] using this
  refine ⟨hk, rfl, rfl, ?_, ?_⟩
  · intro hb
    have h1 : (b + 1) % 256 = b + 1 := Nat.mod_eq_of_lt (by omega)
    simp only [Operator.contains, h1]
    rfl
  · simp [Operator.contains, hk]

/-- C3 witness: the amended theorem applied at a concrete neighborhood,
pattern, list and bound. -/
theorem c3_count_operator_semantics_witness :
    nsEmpty.count_matching rsPlain (.Material 0) ≤ 8
    ∧ Operator.contains (.List [0, 3]) (nsEmpty.count_matching rsPlain (.Material 0))
        = [0, 3].contains (nsEmpty.count_matching rsPlain (.Material 0))
    ∧ Operator.contains (.Less 4) (nsEmpty.count_matching rsPlain (.Material 0))
        = decide (nsEmpty.count_matching rsPlain (.Material 0) < 4)
    ∧ (4 ≤ 254 →
        Operator.contains (.Greater 4) (nsEmpty.count_matching rsPlain (.Material 0))
          = decide (4 < nsEmpty.count_matching rsPlain (.Material 0)
              ∧ nsEmpty.count_matching rsPlain (.Material 0) ≤ 8))
    ∧ Operator.contains (.Greater 255) (nsEmpty.count_matching rsPlain (.Material 0)) = true :=
  c3_count_operator_semantics rsPlain nsEmpty (.Material 0) [0, 3] 4

/-! ## C5 — cell access bounds -/

/-- C6: the claim (and the spec) say removing a material by handle must fail
and leave the registry unchanged when it holds exactly one material.
`MaterialMap::remove` has no such guard — on a one-element registry it
deletes the element and leaves the registry empty (the editor merely hides
the delete button in that state, and the spec itself flags the missing check
as an error the code does not raise). -/
theorem c6_remove_empties_registry :
    MaterialMap.remove [⟨0, "Empty", ⟨0, 0, 0⟩⟩] 0 = [] := by
  decide

/-! ## C2 — the generation step -/

/-- C2: after `next_generation`, position `i` holds the output of the first
rule (in rule-list order) whose `transformed` is not absent, and the old cell
otherwise.  Every `transformed` call in the statement is applied to the
pre-step grid `g` — the new vector is a pure function of the old cells, built
in full and only then installed (`self.cells = new_cells`), so rule
evaluation never observes in-progress writes. -/
theorem c2_next_generation_cell (g : Grid) (i : Nat) (c : Cell)
    (h : g.cells[i]? = some c) :
    g.next_generation.cells.length = g.cells.length
    ∧ g.next_generation.ruleset = g.ruleset
    ∧ g.next_generation.cells[i]? =
        some ((g.ruleset.rules.findSome? (fun rule => rule.transformed g c i)).getD c) := by
  refine ⟨?_, rfl, ?_⟩
  · simp [Grid.next_generation]
  · simp only [Grid.next_generation, List.getElem?_map, List.getElem?_enum, h,
      Option.map_some]
    rfl

/-- A one-rule ruleset whose rule rewrites material 0 to material 1
unconditionally, and a 1×1 grid over it. -/
def ruleFlip : Rule := { input := .Material 0, output := 1, conditions := [] }

def rsFlip : Ruleset :=
  { name := "F", rules := [ruleFlip],
    materials := [⟨0, "Empty", ⟨0, 0, 0⟩⟩, ⟨1, "Full", ⟨9, 9, 9⟩⟩], groups := [] }

def gridFlip : Grid := { ruleset := rsFlip, cells := [⟨0⟩], size := 1 }

/-- C2 witness: the step theorem applied to the concrete 1×1 grid. -/
theorem c2_next_generation_cell_witness :
    gridFlip.next_generation.cells.length = gridFlip.cells.length
    ∧ gridFlip.next_generation.ruleset = gridFlip.ruleset
    ∧ gridFlip.next_generation.cells[0]? =
        some ((gridFlip.ruleset.rules.findSome?
          (fun rule => rule.transformed gridFlip ⟨0⟩ 0)).getD ⟨0⟩) :=
  c2_next_generation_cell gridFlip 0 ⟨0⟩ (by decide)

/-! ## C4 — neighborhood geometry -/

/-- Offset table of the claim: the eight neighbor entries in their fixed
order NW, N, NE, W, E, SW, S, SE, with the (Δx, Δy) each stands for. -/
def Direction.offsets : Direction → Int × Int
  | .Northwest => (-1, -1)
  | .North => (0, -1)
  | .Northeast => (1, -1)
  | .West => (-1, 0)
  | .East => (1, 0)
  | .Southwest => (-1, 1)
  | .South => (0, 1)
  | .Southeast => (1, 1)

/-- Characterization of `usize::wrapping_add_signed` for unit offsets: either
the mathematical sum is negative and the result wraps to `usize::MAX`, or the
result is the mathematical sum. -/
theorem usizeWrapAddSigned_spec (x : Nat) (d : Int)
    (hd : d = -1 ∨ d = 0 ∨ d = 1) (hx : x + 1 < 18446744073709551616) :
    ((x : Int) + d < 0 ∧ usizeWrapAddSigned x d = 18446744073709551615)
    ∨ (0 ≤ (x : Int) + d ∧ usizeWrapAddSigned x d = ((x : Int) + d).toNat) := by
  unfold usizeWrapAddSigned
  rcases hd with rfl | rfl | rfl <;> omega

/-- Characterization of `Grid::get_neighbor` for the unit offsets used by
`Grid::neighbors`: the neighbor is the cell at the row-major position of
`(x + Δx, y + Δy)` when both offset coordinates lie in `[0, N)`, and absent
otherwise (a negative coordinate wraps to `usize::MAX`, which is then caught
by the `x >= self.size` test). -/
theorem get_neighbor_spec (g : Grid) (index : Nat) (dx dy : Int)
    (hdx : dx = -1 ∨ dx = 0 ∨ dx = 1) (hdy : dy = -1 ∨ dy = 0 ∨ dy = 1)
    (hidx : index < g.size * g.size) (hsz : g.size < 18446744073709551616) :
    g.get_neighbor index dx dy =
      (if 0 ≤ ((index % g.size : Nat) : Int) + dx
          ∧ ((index % g.size : Nat) : Int) + dx < (g.size : Int)
          ∧ 0 ≤ ((index / g.size : Nat) : Int) + dy
          ∧ ((index / g.size : Nat) : Int) + dy < (g.size : Int)
       then g.cells.get? ((((index / g.size : Nat) : Int) + dy).toNat * g.size
              + (((index % g.size : Nat) : Int) + dx).toNat)
       else none) := by
  have hpos : 0 < g.size := by
    rcases Nat.eq_zero_or_pos g.size with h0 | h
    · rw [h0] at hidx; exact absurd hidx (by omega)
    · exact h
  have hx0 : index % g.size < g.size := Nat.mod_lt _ hpos
  have hy0 : index / g.size < g.size := (Nat.div_lt_iff_lt_mul hpos).mpr hidx
  rcases usizeWrapAddSigned_spec (index % g.size) dx hdx (by omega) with
    ⟨hnx, hX⟩ | ⟨hnx, hX⟩ <;>
  rcases usizeWrapAddSigned_spec (index / g.size) dy hdy (by omega) with
    ⟨hny, hY⟩ | ⟨hny, hY⟩ <;>
  · simp only [Grid.get_neighbor, Grid.cell_coordinates, Grid.cell_at, Grid.cell_index,
      hX, hY]
    split_ifs <;> first | rfl | (exfalso; omega)

/-- C4: for every in-range index of a grid of size `N < 2⁶⁴`, the neighbor
array entry read back by `in_direction d` (the entries are stored in the
fixed order NW, N, NE, W, E, SW, S, SE) is the cell at row-major position
`(y + Δy)·N + (x + Δx)` for the offset `(Δx, Δy)` of `d` when both offset
coordinates lie in `[0, N)`, and absent otherwise — edges are never wrapped
and never default-filled. -/
theorem c4_neighbors_fixed_order (g : Grid) (index : Nat) (d : Direction)
    (hidx : index < g.size * g.size) (hsz : g.size < 18446744073709551616) :
    (g.neighbors index).in_direction d =
      (if 0 ≤ ((index % g.size : Nat) : Int) + (Direction.offsets d).1
          ∧ ((index % g.size : Nat) : Int) + (Direction.offsets d).1 < (g.size : Int)
          ∧ 0 ≤ ((index / g.size : Nat) : Int) + (Direction.offsets d).2
          ∧ ((index / g.size : Nat) : Int) + (Direction.offsets d).2 < (g.size : Int)
       then g.cells.get? ((((index / g.size : Nat) : Int) + (Direction.offsets d).2).toNat * g.size
              + (((index % g.size : Nat) : Int) + (Direction.offsets d).1).toNat)
       else none) := by
  cases d <;>
    exact get_neighbor_spec g index _ _ (by norm_num) (by norm_num) hidx hsz

/-- C4 witness: the neighbor theorem applied to the 2×2 grid at index 0 for
an in-grid direction (East) and an off-grid one (Northwest). -/
theorem c4_neighbors_fixed_order_witness :
    (gridTwo.neighbors 0).in_direction .East = some cellB
    ∧ (gridTwo.neighbors 0).in_direction .Northwest = none := by
  constructor
  · rw [c4_neighbors_fixed_order gridTwo 0 .East (by decide) (by decide)]
    decide
  · rw [c4_neighbors_fixed_order gridTwo 0 .Northwest (by decide) (by decide)]
    decide

/-! ## C8 — dangling group handles -/

/-- A rule whose only condition has a dangling group pattern under a
Count(List([0])) variant: the pattern matches nothing, so the count is 0,
which the operator accepts. -/
def ruleDanglingCount : Rule :=
  { input := .Material 0, output := 1,
    conditions := [⟨.Count (.List [0]), .Group 99, false⟩] }

/-- A 1×1 grid whose ruleset contains `ruleDanglingCount` and no groups. -/
def gridDangling : Grid :=
  { ruleset :=
      { name := "T", rules := [ruleDanglingCount],
        materials := [⟨0, "Empty", ⟨0, 0, 0⟩⟩, ⟨1, "Full", ⟨9, 9, 9⟩⟩],
        groups := [] },
    cells := [⟨0⟩], size := 1 }

/-- C8 counterexample: group handle 99 does not resolve, yet the rule that
references it (from a Count condition) fires and changes the cell of the
grid — "such rules never change any cell" fails when the dangling reference
sits in a condition pattern, because the pattern degrades to a zero match
count and `List([0])` accepts a zero count. -/
theorem c8_dangling_counterexample :
    gridDangling.ruleset.group 99 = none
    ∧ ruleDanglingCount.transformed gridDangling ⟨0⟩ 0 = some ⟨1⟩
    ∧ gridDangling.next_generation.cells = [⟨1⟩] := by
  decide

/-- C8 (amended): an unresolved group handle matches no cell; rule
evaluation is total (it always returns absent-or-a-cell, never fails); and a
rule whose *input* pattern is an unresolved group never produces an output,
hence never changes any cell. -/
theorem c8_dangling_group_never_matches (rs : Ruleset) (gid : Nat)
    (h : rs.group gid = none) :
    (∀ c : Cell, (Pattern.Group gid).matches rs c = false)
    ∧ (∀ (r : Rule) (g : Grid) (c : Cell) (i : Nat),
        r.input = Pattern.Group gid → g.ruleset = rs →
          r.transformed g c i = none) := by
  have hm : ∀ c : Cell, (Pattern.Group gid).matches rs c = false := by
    intro c
    simp [Pattern.matches, h]
  refine ⟨hm, ?_⟩
  intro r g c i hin hrs
  simp [Rule.transformed, hin, hrs, hm c]

/-- A rule whose input pattern is the dangling group 99, over `rsPlain`. -/
def ruleGroupInput : Rule := { input := .Group 99, output := 1, conditions := [] }

/-- A 1×1 grid over `rsPlain` (which has no groups). -/
def gridPlainOne : Grid := { ruleset := rsPlain, cells := [⟨0⟩], size := 1 }

/-- C8 witness: the amended theorem at group handle 99 in `rsPlain`. -/
theorem c8_dangling_group_never_matches_witness :
    (Pattern.Group 99).matches rsPlain ⟨5⟩ = false
    ∧ ruleGroupInput.transformed gridPlainOne ⟨5⟩ 0 = none :=
  ⟨(c8_dangling_group_never_matches rsPlain 99 (by decide)).1 ⟨5⟩,
   (c8_dangling_group_never_matches rsPlain 99 (by decide)).2
     ruleGroupInput gridPlainOne ⟨5⟩ 0 rfl rfl⟩

/-! ## C10 — the step ignores material names and colors -/

/-- Pattern matching reads only the groups of the ruleset (material patterns
compare ids; group patterns look the group up by id and test membership). -/
theorem Pattern.matches_congr_groups (p : Pattern) (rs1 rs2 : Ruleset)
    (h : rs1.groups = rs2.groups) (c : Cell) :
    p.matches rs1 c = p.matches rs2 c := by
  cases p with
  | Material id => rfl
  | Group id => simp [Pattern.matches, Ruleset.group, h]

/-- Neighbor counting inherits group-only dependence from pattern matching. -/
theorem CellNeighbors.count_matching_congr (ns : CellNeighbors) (rs1 rs2 : Ruleset)
    (h : rs1.groups = rs2.groups) (p : Pattern) :
    ns.count_matching rs1 p = ns.count_matching rs2 p := by
  unfold CellNeighbors.count_matching
  congr 1
  funext cell
  cases cell with
  | none => rfl
  | some c => simp [Pattern.matches_congr_groups p rs1 rs2 h c]

/-- Condition evaluation inherits group-only dependence. -/
theorem Condition.matches_congr (c : Condition) (ns : CellNeighbors) (rs1 rs2 : Ruleset)
    (h : rs1.groups = rs2.groups) :
    c.matches ns rs1 = c.matches ns rs2 := by
  cases hv : c.variant with
  | Directional dirs =>
      simp only [Condition.matches, hv]
      congr 1
      funext dir
      cases ns.in_direction dir with
      | none => rfl
      | some cell => simp [Pattern.matches_congr_groups _ rs1 rs2 h]
  | Count counts =>
      simp only [Condition.matches, hv, CellNeighbors.count_matching_congr ns rs1 rs2 h]

/-- Rule application depends only on the cells, the size and the groups of
the grid (besides the rule itself). -/
theorem Rule.transformed_congr (r : Rule) (g1 g2 : Grid)
    (hsize : g1.size = g2.size) (hcells : g1.cells = g2.cells)
    (hgroups : g1.ruleset.groups = g2.ruleset.groups)
    (c : Cell) (i : Nat) :
    r.transformed g1 c i = r.transformed g2 c i := by
  have hn : g1.neighbors i = g2.neighbors i := by
    unfold Grid.neighbors Grid.get_neighbor Grid.cell_coordinates Grid.cell_at Grid.cell_index
    rw [hsize, hcells]
  unfold Rule.transformed
  rw [Pattern.matches_congr_groups r.input g1.ruleset g2.ruleset hgroups c, hn]
  have hall : r.conditions.all (fun condition => condition.matches (g2.neighbors i) g1.ruleset)
      = r.conditions.all (fun condition => condition.matches (g2.neighbors i) g2.ruleset) := by
    congr 1
    funext condition
    exact Condition.matches_congr condition (g2.neighbors i) _ _ hgroups
  rw [hall]

/-- C10: the generation step reads only cell material handles and the
structural content of the rule set (rule order, patterns, conditions, group
membership, output handles) — material names and colors never enter.  Two
grids that agree on everything except the `name` and `color` fields of their
materials step to identical cell arrays. -/
theorem c10_step_ignores_material_names_colors (g1 g2 : Grid)
    (hsize : g1.size = g2.size) (hcells : g1.cells = g2.cells)
    (hname : g1.ruleset.name = g2.ruleset.name)
    (hrules : g1.ruleset.rules = g2.ruleset.rules)
    (hgroups : g1.ruleset.groups = g2.ruleset.groups)
    (hmats : List.Forall₂ (fun m1 m2 : Material => m1.id = m2.id)
      g1.ruleset.materials g2.ruleset.materials) :
    g1.next_generation.cells = g2.next_generation.cells := by
  have hng : ∀ g : Grid, g.next_generation.cells = g.cells.enum.map (fun ic =>
      (g.ruleset.rules.findSome? (fun rule => rule.transformed g ic.2 ic.1)).getD ic.2) :=
    fun g => rfl
  have hf : ∀ ic : Nat × Cell,
      (fun rule : Rule => rule.transformed g1 ic.2 ic.1)
        = (fun rule : Rule => rule.transformed g2 ic.2 ic.1) := by
    intro ic
    funext rule
    exact Rule.transformed_congr rule g1 g2 hsize hcells hgroups ic.2 ic.1
  rw [hng g1, hng g2, hcells, hrules]
  apply List.map_congr_left
  intro ic _
  rw [hf ic]

/-- The ruleset of `gridFlip` with its materials renamed and recolored. -/
def rsFlipPainted : Ruleset :=
  { name := "F", rules := [ruleFlip],
    materials := [⟨0, "Zero", ⟨5, 5, 5⟩⟩, ⟨1, "One", ⟨7, 7, 7⟩⟩], groups := [] }

/-- The grid of `gridFlip` over the renamed/recolored ruleset. -/
def gridFlipPainted : Grid := { ruleset := rsFlipPainted, cells := [⟨0⟩], size := 1 }

/-- C10 witness: stepping `gridFlip` and its renamed/recolored twin yields
the same cells. -/
theorem c10_step_ignores_material_names_colors_witness :
    gridFlip.next_generation.cells = gridFlipPainted.next_generation.cells :=
  c10_step_ignores_material_names_colors gridFlip gridFlipPainted rfl rfl rfl rfl rfl
    (List.Forall₂.cons rfl (List.Forall₂.cons rfl List.Forall₂.nil))

/-! ## C9 — Pattern text decoding -/

/-- Decimal value of an ASCII digit character, absent for non-digits. -/
def decDigit? (c : Char) : Option Nat :=
  if 48 ≤ c.toNat ∧ c.toNat ≤ 57 then some (c.toNat - 48) else none

/-- Digit-run part of Rust `u32::from_str`: at least one decimal digit and
nothing else, with the value required to fit in `u32`. -/
def parseU32Digits (body : List Char) : Option Nat :=
  if body.isEmpty then none
  else
    match body.foldl (fun acc c => acc.bind fun n => (decDigit? c).map fun d => n * 10 + d)
        (some 0) with
    | some n => if n < 4294967296 then some n else none
    | none => none

/-- Model of Rust `u32::from_str` (`str::parse::<u32>()`): an optional
leading `+` sign, then at least one decimal digit and nothing else, with the
value required to fit in `u32`; anything else is a parse error. -/
def parseU32 (cs : List Char) : Option Nat :=
  if cs.head? = some '+' then parseU32Digits cs.tail else parseU32Digits cs

/-- Outcome of running a serde visitor: a decoded value, a decode error, or
a panic of the process. -/
inductive VisitOutcome (α : Type) where
  | ok (val : α)
  | err
  | panics
deriving DecidableEq

/-- Model of `PatternVisitor::visit_str` from `src/pattern.rs` (lines
87–103).  The source computes `v.split_at(v.len() - 1)` on the byte length:
on the empty string the subtraction underflows and the call panics (debug
profile: overflow panic; release profile: `split_at(usize::MAX)` bounds
panic); on a nonempty string whose final character occupies more than one
UTF-8 byte, the split point `v.len() - 1` falls inside that character and
`split_at` panics on the non-boundary; otherwise `id` is everything but the
last byte (= the last character) and `suffix` that one-byte character, `id`
is parsed as `u32`, and the suffix must be `m` or `g`.  The `none` arm of
the inner match is unreachable (the list is nonempty there). -/
def Pattern.visit_str (v : List Char) : VisitOutcome Pattern :=
  match v with
  | [] => .panics
  | _ =>
    match v.getLast? with
    | none => .panics
    | some c =>
      if c.utf8Size ≠ 1 then .panics
      else
        match parseU32 v.dropLast with
        | none => .err
        | some id =>
          if c = 'm' then .ok (.Material id)
          else if c = 'g' then .ok (.Group id)
          else .err

/-- C9 counterexample: the decoder does not return a decode error on every
non-well-formed string — it panics on the empty string (`v.len() - 1`
underflows inside `split_at`) and on any string whose final character is
multi-byte, such as "é" (`split_at` hits a non-boundary byte position). -/
theorem c9_empty_string_counterexample :
    Pattern.visit_str [] = .panics
    ∧ Pattern.visit_str [] ≠ .err
    ∧ Pattern.visit_str [] ≠ .ok (.Material 0)
    ∧ Pattern.visit_str ['é'] = .panics
    ∧ Pattern.visit_str ['é'] ≠ .err := by
  refine ⟨rfl, by decide, by decide, by decide, by decide⟩

/-- Reduction of the visitor on a nonempty string whose final character is
a single UTF-8 byte, written as its prefix plus last character. -/
theorem Pattern.visit_str_concat (cs : List Char) (c : Char) (hc : c.utf8Size = 1) :
    Pattern.visit_str (cs ++ [c]) =
      (match parseU32 cs with
       | none => .err
       | some id =>
         if c = 'm' then .ok (.Material id)
         else if c = 'g' then .ok (.Group id)
         else .err) := by
  have hdl : (cs ++ [c]).dropLast = cs := by simp
  have hgl : (cs ++ [c]).getLast? = some c := List.getLast?_concat cs
  cases cs with
  | nil =>
      simp only [List.nil_append] at hdl hgl ⊢
      simp only [Pattern.visit_str, hdl, hgl, hc, ne_eq, not_true_eq_false, if_false]
  | cons a as =>
      simp only [List.cons_append] at hdl hgl ⊢
      simp only [Pattern.visit_str, hdl, hgl, hc, ne_eq, not_true_eq_false, if_false]

/-- On a nonempty string whose final character is multi-byte, the visitor
panics (the byte split point is not a character boundary). -/
theorem Pattern.visit_str_concat_panics (cs : List Char) (c : Char)
    (hc : c.utf8Size ≠ 1) :
    Pattern.visit_str (cs ++ [c]) = .panics := by
  have hgl : (cs ++ [c]).getLast? = some c := List.getLast?_concat cs
  cases cs with
  | nil =>
      simp only [List.nil_append] at hgl ⊢
      simp only [Pattern.visit_str, hgl, hc, ne_eq, not_false_eq_true, if_true]
  | cons a as =>
      simp only [List.cons_append] at hgl ⊢
      simp only [Pattern.visit_str, hgl, hc, ne_eq, not_false_eq_true, if_true]

/-- C9 (amended): every nonempty string is a prefix `cs` plus a final
character `c`.  When `c` occupies a single UTF-8 byte, decoding succeeds
exactly when `cs` parses as a `u32` (Rust grammar: optional leading `+`,
decimal digits, value below 2³²) and `c` is the suffix `m` (Material) or
`g` (Group), and every other such string gives a decode error.  The empty
string and every nonempty string whose final character is multi-byte make
the decoder panic (`v.len() - 1` underflows, respectively `split_at` hits a
non-boundary byte position) instead of returning an error. -/
theorem c9_text_decoding (cs : List Char) (c : Char) :
    Pattern.visit_str [] = .panics
    ∧ (c.utf8Size = 1 →
        Pattern.visit_str (cs ++ [c]) ≠ .panics
        ∧ (∀ n, Pattern.visit_str (cs ++ [c]) = .ok (.Material n)
            ↔ (parseU32 cs = some n ∧ c = 'm'))
        ∧ (∀ n, Pattern.visit_str (cs ++ [c]) = .ok (.Group n)
            ↔ (parseU32 cs = some n ∧ c = 'g'))
        ∧ (Pattern.visit_str (cs ++ [c]) = .err
            ↔ (parseU32 cs = none ∨ ((parseU32 cs).isSome ∧ c ≠ 'm' ∧ c ≠ 'g'))))
    ∧ (c.utf8Size ≠ 1 → Pattern.visit_str (cs ++ [c]) = .panics) := by
  refine ⟨rfl, ?_, Pattern.visit_str_concat_panics cs c⟩
  intro hc
  rw [Pattern.visit_str_concat cs c hc]
  refine ⟨?_, ?_, ?_, ?_⟩
  · cases hp : parseU32 cs with
    | none => simp
    | some id =>
        by_cases hm : c = 'm' <;> by_cases hg : c = 'g' <;> simp [hm, hg]
  · intro n
    cases hp : parseU32 cs with
    | none => simp
    | some id =>
        by_cases hm : c = 'm' <;> by_cases hg : c = 'g' <;>
          simp [hm, hg, eq_comm]
  · intro n
    cases hp : parseU32 cs with
    | none => simp
    | some id =>
        by_cases hm : c = 'm' <;> by_cases hg : c = 'g' <;>
          simp [hm, hg, eq_comm]
  · cases hp : parseU32 cs with
    | none => simp
    | some id =>
        by_cases hm : c = 'm' <;> by_cases hg : c = 'g' <;> simp [hm, hg]

/-- C9 witness: the decoding theorem at the concrete strings "42m" (ASCII
suffix: the success/error characterization applies) and "42é" (multi-byte
suffix: panic). -/
theorem c9_text_decoding_witness :
    Pattern.visit_str [] = .panics
    ∧ Pattern.visit_str (['4', '2'] ++ ['m']) ≠ .panics
    ∧ (∀ n, Pattern.visit_str (['4', '2'] ++ ['m']) = .ok (.Material n)
        ↔ (parseU32 ['4', '2'] = some n ∧ 'm' = 'm'))
    ∧ (∀ n, Pattern.visit_str (['4', '2'] ++ ['m']) = .ok (.Group n)
        ↔ (parseU32 ['4', '2'] = some n ∧ 'm' = 'g'))
    ∧ (Pattern.visit_str (['4', '2'] ++ ['m']) = .err
        ↔ (parseU32 ['4', '2'] = none
            ∨ ((parseU32 ['4', '2']).isSome ∧ 'm' ≠ 'm' ∧ 'm' ≠ 'g')))
    ∧ Pattern.visit_str (['4', '2'] ++ ['é']) = .panics :=
  ⟨(c9_text_decoding ['4', '2'] 'm').1,
   ((c9_text_decoding ['4', '2'] 'm').2.1 (by decide)).1,
   ((c9_text_decoding ['4', '2'] 'm').2.1 (by decide)).2.1,
   ((c9_text_decoding ['4', '2'] 'm').2.1 (by decide)).2.2.1,
   ((c9_text_decoding ['4', '2'] 'm').2.1 (by decide)).2.2.2,
   (c9_text_decoding ['4', '2'] 'é').2.2 (by decide)⟩

/-! ## C7 — serialization machinery: decimal and hex text forms

The on-disk format is toml; the repository's own serialization code is the
serde `Serialize`/`Deserialize` impls (hand-written visitors for `Rule`,
`Material`, `MaterialGroup`, `Pattern`, `MaterialColor`, `UniqueId`, derived
impls for the rest).  The embedding works at the serde data-model level: a
tree of scalars, sequences and key/value tables (`SValue` below); toml
itself is the external library, assumed to round-trip that tree. -/

/-- Decimal representation, most significant digit first, as Rust `Display`
prints unsigned integers. -/
def natRepr (n : Nat) : List Char :=
  if n = 0 then ['0']
  else (Nat.digits 10 n).reverse.map (fun d => Char.ofNat (48 + d))

/-- Digit characters decode back to their values. -/
theorem decDigit?_digitChar : ∀ d : Nat, d < 10 →
    decDigit? (Char.ofNat (48 + d)) = some d := by
  decide

/-- Folding the decimal-digit decoder over digit characters computes the
base-10 fold of the digit values. -/
theorem foldl_decDigits (ds : List Nat) (a : Nat) (h : ∀ d ∈ ds, d < 10) :
    (ds.map (fun d => Char.ofNat (48 + d))).foldl
        (fun acc c => acc.bind fun n => (decDigit? c).map fun d => n * 10 + d) (some a)
      = some (ds.foldl (fun n d => n * 10 + d) a) := by
  induction ds generalizing a with
  | nil => rfl
  | cons d ds ih =>
      have hd : d < 10 := h d (by simp)
      simp only [List.map_cons, List.foldl_cons]
      rw [decDigit?_digitChar d hd]
      exact ih (a * 10 + d) (fun x hx => h x (by simp [hx]))

/-- The base-10 fold over a reversed little-endian digit list recovers
`Nat.ofDigits`. -/
theorem foldl_mul_add_reverse (L : List Nat) (a : Nat) :
    L.reverse.foldl (fun n d => n * 10 + d) a = a * 10 ^ L.length + Nat.ofDigits 10 L := by
  induction L generalizing a with
  | nil => simp
  | cons d T ih =>
      simp only [List.reverse_cons, List.foldl_append, List.foldl_cons, List.foldl_nil,
        List.length_cons, Nat.ofDigits_cons, ih]
      ring

/-- Rust `u32::from_str` accepts the decimal print-out of any value below
2³² and returns the value. -/
theorem parseU32_natRepr (n : Nat) (hn : n < 4294967296) :
    parseU32 (natRepr n) = some n := by
  by_cases h0 : n = 0
  · subst h0; decide
  · have hds : ∀ d ∈ (Nat.digits 10 n).reverse, d < 10 := by
      intro d hd
      exact Nat.digits_lt_base (by norm_num) (List.mem_reverse.mp hd)
    have hfold : (Nat.digits 10 n).reverse.foldl (fun m d => m * 10 + d) 0 = n := by
      rw [foldl_mul_add_reverse]
      simp [Nat.ofDigits_digits]
    obtain ⟨d0, ds, hcons⟩ : ∃ d0 ds, (Nat.digits 10 n).reverse = d0 :: ds := by
      have hne : (Nat.digits 10 n).reverse ≠ [] := by
        simp [Nat.digits_ne_nil_iff_ne_zero, h0]
      exact List.exists_cons_of_ne_nil hne
    have hd0 : d0 < 10 := hds d0 (by rw [hcons]; simp)
    have hnopl : ∀ d : Nat, d < 10 → Char.ofNat (48 + d) ≠ '+' := by decide
    rw [hcons] at hds hfold
    unfold natRepr
    rw [if_neg h0, hcons]
    unfold parseU32
    rw [if_neg (by
      simp only [List.map_cons, List.head?_cons]
      intro hEq
      exact hnopl d0 hd0 (Option.some_inj.mp hEq))]
    unfold parseU32Digits
    rw [if_neg (by simp)]
    rw [foldl_decDigits (d0 :: ds) 0 hds]
    show (if (d0 :: ds).foldl (fun n d => n * 10 + d) 0 < 4294967296 then
        some ((d0 :: ds).foldl (fun n d => n * 10 + d) 0) else none) = some n
    rw [hfold, if_pos hn]

/-- Uppercase hexadecimal digit character for a value below 16. -/
def hexDigitChar (d : Nat) : Char :=
  if d < 10 then Char.ofNat (48 + d) else Char.ofNat (55 + d)

/-- Model of the `Display` impl for `MaterialColor`: `#RRGGBB`, each
component printed with `{:02X}` (two uppercase hex digits; components are
`u8`, so the quotient digit is below 16). -/
def MaterialColor.displayChars (c : MaterialColor) : List Char :=
  '#' :: [hexDigitChar (c.r / 16), hexDigitChar (c.r % 16),
    hexDigitChar (c.g / 16), hexDigitChar (c.g % 16),
    hexDigitChar (c.b / 16), hexDigitChar (c.b % 16)]

/-- Hexadecimal value of an ASCII character (both cases), absent otherwise. -/
def hexDigitVal? (c : Char) : Option Nat :=
  if 48 ≤ c.toNat ∧ c.toNat ≤ 57 then some (c.toNat - 48)
  else if 97 ≤ c.toNat ∧ c.toNat ≤ 102 then some (c.toNat - 87)
  else if 65 ≤ c.toNat ∧ c.toNat ≤ 70 then some (c.toNat - 55)
  else none

/-- Digit-run part of Rust `u8::from_str_radix(s, 16)`. -/
def parseHexU8Digits (body : List Char) : Option Nat :=
  if body.isEmpty then none
  else
    match body.foldl (fun acc c => acc.bind fun n => (hexDigitVal? c).map fun d => n * 16 + d)
        (some 0) with
    | some n => if n < 256 then some n else none
    | none => none

/-- Model of Rust `u8::from_str_radix(s, 16)`: an optional leading `+` sign,
then at least one hexadecimal digit and nothing else, value fitting `u8`. -/
def parseHexU8 (cs : List Char) : Option Nat :=
  if cs.head? = some '+' then parseHexU8Digits cs.tail else parseHexU8Digits cs

/-- The 2-character chunks of a character list, as produced by
`slice::chunks(2)` (a trailing odd chunk has one element). -/
def chunks2 (cs : List Char) : List (List Char) :=
  match cs with
  | [] => []
  | [a] => [[a]]
  | a :: b :: rest => [a, b] :: chunks2 rest

/-- Model of `FromStr for MaterialColor` from `src/material.rs`: strip the
`#` (error if absent), cut the remainder into 2-byte chunks, parse the first
three chunks as hex `u8` components, and reject the presence of a fourth
chunk. -/
def MaterialColor.from_str (s : List Char) : Option MaterialColor :=
  match s with
  | '#' :: numbers =>
    match chunks2 numbers with
    | [rc, gc, bc] =>
      match parseHexU8 rc, parseHexU8 gc, parseHexU8 bc with
      | some r, some g, some b => some ⟨r, g, b⟩
      | _, _, _ => none
    | _ => none
  | _ => none

set_option maxRecDepth 8192 in
/-- A `u8` printed with `{:02X}` parses back to itself. -/
theorem parseHexU8_pair : ∀ n : Nat, n < 256 →
    parseHexU8 [hexDigitChar (n / 16), hexDigitChar (n % 16)] = some n := by
  decide

/-- Hex text round-trip for colors with `u8` components. -/
theorem materialColor_from_str_displayChars (c : MaterialColor)
    (hr : c.r < 256) (hg : c.g < 256) (hb : c.b < 256) :
    MaterialColor.from_str c.displayChars = some c := by
  obtain ⟨r, g, b⟩ := c
  simp only [MaterialColor.displayChars, MaterialColor.from_str, chunks2]
  rw [parseHexU8_pair r hr, parseHexU8_pair g hg, parseHexU8_pair b hb]

/-- The serde data model as toml sees it: strings, integers, booleans,
sequences, and key/value tables. -/
inductive SValue where
  | str (s : String)
  | int (n : Nat)
  | boolean (b : Bool)
  | arr (elems : List SValue)
  | table (fields : List (String × SValue))

/-! Well-formedness: the side conditions the claim grants — every handle is
an actual `u32` value and every color component an actual `u8` value (true
by typing in the Rust source, explicit here because the embedding uses
`Nat`).  The `u8` payloads of Count operators get the same treatment. -/

/-- Handles fit in `u32`. -/
def Pattern.wf : Pattern → Prop
  | .Material id => id < 4294967296
  | .Group id => id < 4294967296

/-- Count payloads fit in `u8`. -/
def Operator.wf : Operator → Prop
  | .List vec => ∀ x ∈ vec, x < 256
  | .Greater bound => bound < 256
  | .Less bound => bound < 256

/-- Directional payloads are always well-formed; Count payloads fit `u8`. -/
def ConditionVariant.wf : ConditionVariant → Prop
  | .Directional _ => True
  | .Count op => op.wf

/-- Variant and pattern are well-formed. -/
def Condition.wf (c : Condition) : Prop := c.variant.wf ∧ c.pattern.wf

/-- Components fit in `u8`. -/
def MaterialColor.wf (c : MaterialColor) : Prop :=
  c.r < 256 ∧ c.g < 256 ∧ c.b < 256

/-- Handle fits `u32`, color components fit `u8`. -/
def Material.wf (m : Material) : Prop := m.id < 4294967296 ∧ m.color.wf

/-- Handles fit in `u32`. -/
def MaterialGroup.wf (g : MaterialGroup) : Prop :=
  g.id < 4294967296 ∧ ∀ x ∈ g.materials, x < 4294967296

/-- Input pattern, output handle and all conditions are well-formed. -/
def Rule.wf (r : Rule) : Prop :=
  r.input.wf ∧ r.output < 4294967296 ∧ ∀ c ∈ r.conditions, c.wf

/-- All rules, materials and groups are well-formed. -/
def Ruleset.wf (rs : Ruleset) : Prop :=
  (∀ r ∈ rs.rules, r.wf) ∧ (∀ m ∈ rs.materials, m.wf) ∧ (∀ g ∈ rs.groups, g.wf)

instance : DecidablePred Pattern.wf
  | .Material id => inferInstanceAs (Decidable (id < 4294967296))
  | .Group id => inferInstanceAs (Decidable (id < 4294967296))

instance : DecidablePred Operator.wf
  | .List vec => inferInstanceAs (Decidable (∀ x ∈ vec, x < 256))
  | .Greater bound => inferInstanceAs (Decidable (bound < 256))
  | .Less bound => inferInstanceAs (Decidable (bound < 256))

instance : DecidablePred ConditionVariant.wf
  | .Directional _ => inferInstanceAs (Decidable True)
  | .Count op => inferInstanceAs (Decidable op.wf)

instance (c : Condition) : Decidable c.wf :=
  inferInstanceAs (Decidable (c.variant.wf ∧ c.pattern.wf))

instance (c : MaterialColor) : Decidable c.wf :=
  inferInstanceAs (Decidable (c.r < 256 ∧ c.g < 256 ∧ c.b < 256))

instance (m : Material) : Decidable m.wf :=
  inferInstanceAs (Decidable (m.id < 4294967296 ∧ m.color.wf))

instance (g : MaterialGroup) : Decidable g.wf :=
  inferInstanceAs (Decidable (g.id < 4294967296 ∧ ∀ x ∈ g.materials, x < 4294967296))

instance (r : Rule) : Decidable r.wf :=
  inferInstanceAs (Decidable (r.input.wf ∧ r.output < 4294967296 ∧ ∀ c ∈ r.conditions, c.wf))

instance (rs : Ruleset) : Decidable rs.wf :=
  inferInstanceAs (Decidable
    ((∀ r ∈ rs.rules, r.wf) ∧ (∀ m ∈ rs.materials, m.wf) ∧ (∀ g ∈ rs.groups, g.wf)))

/-! Serializers.  Hand-written impls are modelled statement-for-statement;
derived impls produce the canonical serde forms: a struct is a table of its
fields in declaration order, an enum is externally tagged (a one-entry table
for data variants, the bare name string for unit variants), a `Vec` is a
sequence, and the newtypes `UniqueId`/`MaterialMap` are transparent. -/

/-- Model of `Serialize for UniqueId`: `serialize_u32(self.0)`. -/
def serializeId (n : Nat) : SValue := .int n

/-- Model of `Serialize for Pattern` from `src/pattern.rs`: the decimal
handle followed by `m` or `g`, as a string. -/
def Pattern.serialize : Pattern → SValue
  | .Material id => .str ⟨natRepr id ++ ['m']⟩
  | .Group id => .str ⟨natRepr id ++ ['g']⟩

/-- Model of `Serialize for MaterialColor`: `serialize_str(self.to_string())`. -/
def MaterialColor.serialize (c : MaterialColor) : SValue := .str ⟨c.displayChars⟩

/-- Model of the derived `Serialize` for `Direction` (unit variants). -/
def Direction.serialize : Direction → SValue
  | .Northwest => .str "Northwest"
  | .North => .str "North"
  | .Northeast => .str "Northeast"
  | .West => .str "West"
  | .East => .str "East"
  | .Southwest => .str "Southwest"
  | .South => .str "South"
  | .Southeast => .str "Southeast"

/-- Model of the derived `Serialize` for `Operator` (externally tagged). -/
def Operator.serialize : Operator → SValue
  | .List vec => .table [("List", .arr (vec.map SValue.int))]
  | .Greater bound => .table [("Greater", .int bound)]
  | .Less bound => .table [("Less", .int bound)]

/-- Model of the derived `Serialize` for `ConditionVariant`. -/
def ConditionVariant.serialize : ConditionVariant → SValue
  | .Directional dirs => .table [("Directional", .arr (dirs.map Direction.serialize))]
  | .Count op => .table [("Count", op.serialize)]

/-- Model of the derived `Serialize` for `Condition` (field order of the
struct declaration). -/
def Condition.serialize (c : Condition) : SValue :=
  .table [("variant", c.variant.serialize), ("pattern", c.pattern.serialize),
    ("inverted", .boolean c.inverted)]

/-- Model of the derived `Serialize` for `Rule`. -/
def Rule.serialize (r : Rule) : SValue :=
  .table [("input", r.input.serialize), ("output", serializeId r.output),
    ("conditions", .arr (r.conditions.map Condition.serialize))]

/-- Model of the derived `Serialize` for `Material`. -/
def Material.serialize (m : Material) : SValue :=
  .table [("id", serializeId m.id), ("name", .str m.name),
    ("color", m.color.serialize)]

/-- Model of the derived `Serialize` for `MaterialGroup`. -/
def MaterialGroup.serialize (g : MaterialGroup) : SValue :=
  .table [("id", serializeId g.id), ("name", .str g.name),
    ("materials", .arr (g.materials.map serializeId))]

/-- Model of the derived `Serialize` for `Ruleset` (the `MaterialMap`
newtype serializes as its inner `Vec<Material>`). -/
def Ruleset.serialize (rs : Ruleset) : SValue :=
  .table [("name", .str rs.name), ("rules", .arr (rs.rules.map Rule.serialize)),
    ("materials", .arr (rs.materials.map Material.serialize)),
    ("groups", .arr (rs.groups.map MaterialGroup.serialize))]

/-! Deserializers.  The hand-written visitors (`RuleVisitor`,
`MaterialVisitor`, `MaterialGroupVisitor`, `PatternVisitor`,
`MaterialColorVisitor`) are modelled loop-for-loop, including their
duplicate-field and unknown-field errors; derived impls decode the canonical
forms their serializers produce. -/

/-- Decode a `u32` scalar (`next_value::<u32>()`). -/
def SValue.asU32 (v : SValue) : Option Nat :=
  match v with
  | .int n => if n < 4294967296 then some n else none
  | _ => none

/-- Decode a `u8` scalar (`next_value::<u8>()`). -/
def SValue.asU8 (v : SValue) : Option Nat :=
  match v with
  | .int n => if n < 256 then some n else none
  | _ => none

/-- Decode a string scalar. -/
def SValue.asString (v : SValue) : Option String :=
  match v with
  | .str s => some s
  | _ => none

/-- Decode a boolean scalar. -/
def SValue.asBool (v : SValue) : Option Bool :=
  match v with
  | .boolean b => some b
  | _ => none

/-- Sequential decoding of a serde sequence: elements are pulled one by one
and the first failure aborts. -/
def decodeSeq (f : SValue → Option α) : List SValue → Option (List α)
  | [] => some []
  | v :: rest =>
    match f v, decodeSeq f rest with
    | some a, some as => some (a :: as)
    | _, _ => none

/-- Model of `Deserialize for Pattern`: `deserialize_str` with
`PatternVisitor` (a panic of the visitor aborts the process; no value is
produced, modelled as decode failure here). -/
def Pattern.deserialize (v : SValue) : Option Pattern :=
  match v with
  | .str s =>
    match Pattern.visit_str s.data with
    | .ok p => some p
    | _ => none
  | _ => none

/-- Model of `Deserialize for MaterialColor`: `deserialize_str` with
`MaterialColorVisitor`, which runs `v.parse()` (the `FromStr` above). -/
def MaterialColor.deserialize (v : SValue) : Option MaterialColor :=
  match v with
  | .str s => MaterialColor.from_str s.data
  | _ => none

/-- Model of the derived `Deserialize` for `Direction` (unit variants by
name). -/
def Direction.deserialize (v : SValue) : Option Direction :=
  match v with
  | .str s =>
    if s = "Northwest" then some .Northwest
    else if s = "North" then some .North
    else if s = "Northeast" then some .Northeast
    else if s = "West" then some .West
    else if s = "East" then some .East
    else if s = "Southwest" then some .Southwest
    else if s = "South" then some .South
    else if s = "Southeast" then some .Southeast
    else none
  | _ => none

/-- Model of the derived `Deserialize` for `Operator` (externally tagged). -/
def Operator.deserialize (v : SValue) : Option Operator :=
  match v with
  | .table [("List", .arr es)] => (decodeSeq SValue.asU8 es).map .List
  | .table [("Greater", payload)] => payload.asU8.map .Greater
  | .table [("Less", payload)] => payload.asU8.map .Less
  | _ => none

/-- Model of the derived `Deserialize` for `ConditionVariant`. -/
def ConditionVariant.deserialize (v : SValue) : Option ConditionVariant :=
  match v with
  | .table [("Directional", .arr es)] =>
      (decodeSeq Direction.deserialize es).map .Directional
  | .table [("Count", payload)] => (Operator.deserialize payload).map .Count
  | _ => none

/-- Model of the derived `Deserialize` for `Condition` on the canonical
field order its derived serializer emits. -/
def Condition.deserialize (v : SValue) : Option Condition :=
  match v with
  | .table [("variant", vv), ("pattern", pv), ("inverted", iv)] =>
    match ConditionVariant.deserialize vv, Pattern.deserialize pv, iv.asBool with
    | some variant, some pattern, some inverted => some ⟨variant, pattern, inverted⟩
    | _, _, _ => none
  | _ => none

/-- Model of `MaterialVisitor::visit_map` from `src/material.rs`: fold over
the key/value entries, rejecting duplicate and unknown keys, requiring all
three fields at the end (`id` read as `u32` and wrapped unchecked). -/
def Material.visitFields : List (String × SValue) → Option Nat → Option String →
    Option MaterialColor → Option Material
  | [], some id, some name, some color => some ⟨id, name, color⟩
  | [], _, _, _ => none
  | (key, v) :: rest, id?, name?, color? =>
    if key = "id" then
      match id? with
      | some _ => none
      | none =>
        match v.asU32 with
        | some n => Material.visitFields rest (some n) name? color?
        | none => none
    else if key = "name" then
      match name? with
      | some _ => none
      | none =>
        match v.asString with
        | some s => Material.visitFields rest id? (some s) color?
        | none => none
    else if key = "color" then
      match color? with
      | some _ => none
      | none =>
        match MaterialColor.deserialize v with
        | some c => Material.visitFields rest id? name? (some c)
        | none => none
    else none

/-- Model of `Deserialize for Material` (`deserialize_struct` with
`MaterialVisitor`). -/
def Material.deserialize (v : SValue) : Option Material :=
  match v with
  | .table fields => Material.visitFields fields none none none
  | _ => none

/-- Model of `MaterialGroupVisitor::visit_map` from `src/material.rs`
(`materials` read as `Vec<u32>` and wrapped unchecked). -/
def MaterialGroup.visitFields : List (String × SValue) → Option Nat → Option String →
    Option (List Nat) → Option MaterialGroup
  | [], some id, some name, some materials => some ⟨id, name, materials⟩
  | [], _, _, _ => none
  | (key, v) :: rest, id?, name?, mats? =>
    if key = "id" then
      match id? with
      | some _ => none
      | none =>
        match v.asU32 with
        | some n => MaterialGroup.visitFields rest (some n) name? mats?
        | none => none
    else if key = "name" then
      match name? with
      | some _ => none
      | none =>
        match v.asString with
        | some s => MaterialGroup.visitFields rest id? (some s) mats?
        | none => none
    else if key = "materials" then
      match mats? with
      | some _ => none
      | none =>
        match v with
        | .arr es =>
          match decodeSeq SValue.asU32 es with
          | some ms => MaterialGroup.visitFields rest id? name? (some ms)
          | none => none
        | _ => none
    else none

/-- Model of `Deserialize for MaterialGroup`. -/
def MaterialGroup.deserialize (v : SValue) : Option MaterialGroup :=
  match v with
  | .table fields => MaterialGroup.visitFields fields none none none
  | _ => none

/-- Model of `RuleVisitor::visit_map` from `src/ruleset.rs` (`output` read
as `u32` and wrapped with `UniqueId::new_unchecked`). -/
def Rule.visitFields : List (String × SValue) → Option Pattern → Option Nat →
    Option (List Condition) → Option Rule
  | [], some input, some output, some conditions => some ⟨input, output, conditions⟩
  | [], _, _, _ => none
  | (key, v) :: rest, inp?, outp?, conds? =>
    if key = "input" then
      match inp? with
      | some _ => none
      | none =>
        match Pattern.deserialize v with
        | some p => Rule.visitFields rest (some p) outp? conds?
        | none => none
    else if key = "output" then
      match outp? with
      | some _ => none
      | none =>
        match v.asU32 with
        | some n => Rule.visitFields rest inp? (some n) conds?
        | none => none
    else if key = "conditions" then
      match conds? with
      | some _ => none
      | none =>
        match v with
        | .arr es =>
          match decodeSeq Condition.deserialize es with
          | some cs => Rule.visitFields rest inp? outp? (some cs)
          | none => none
        | _ => none
    else none

/-- Model of `Deserialize for Rule` (`deserialize_struct` with
`RuleVisitor`). -/
def Rule.deserialize (v : SValue) : Option Rule :=
  match v with
  | .table fields => Rule.visitFields fields none none none
  | _ => none

/-- Model of the derived `Deserialize` for `Ruleset` on the canonical field
order its derived serializer emits (`MaterialMap` decodes as its inner
`Vec<Material>`). -/
def Ruleset.deserialize (v : SValue) : Option Ruleset :=
  match v with
  | .table [("name", .str name), ("rules", .arr res), ("materials", .arr mes),
      ("groups", .arr ges)] =>
    match decodeSeq Rule.deserialize res, decodeSeq Material.deserialize mes,
        decodeSeq MaterialGroup.deserialize ges with
    | some rules, some materials, some groups => some ⟨name, rules, materials, groups⟩
    | _, _, _ => none
  | _ => none

/-! Round-trip lemmas, innermost types first. -/

/-- Decoding a serialized sequence succeeds elementwise. -/
theorem decodeSeq_map {α : Type} (f : α → SValue) (g : SValue → Option α) (l : List α)
    (h : ∀ a ∈ l, g (f a) = some a) :
    decodeSeq g (l.map f) = some l := by
  induction l with
  | nil => rfl
  | cons a as ih =>
      simp only [List.map_cons, decodeSeq, h a (by simp),
        ih (fun x hx => h x (by simp [hx]))]

/-- Pattern text round-trip for `u32` handles. -/
theorem pattern_roundtrip (p : Pattern) (h : p.wf) :
    Pattern.deserialize p.serialize = some p := by
  cases p with
  | Material id =>
      have hp : parseU32 (natRepr id) = some id := parseU32_natRepr id h
      simp only [Pattern.serialize, Pattern.deserialize]
      rw [Pattern.visit_str_concat (natRepr id) 'm' (by decide), hp]
      simp
  | Group id =>
      have hp : parseU32 (natRepr id) = some id := parseU32_natRepr id h
      simp only [Pattern.serialize, Pattern.deserialize]
      rw [Pattern.visit_str_concat (natRepr id) 'g' (by decide), hp]
      simp

/-- Color round-trip for `u8` components. -/
theorem materialColor_roundtrip (c : MaterialColor) (h : c.wf) :
    MaterialColor.deserialize c.serialize = some c :=
  materialColor_from_str_displayChars c h.1 h.2.1 h.2.2

/-- Direction round-trip. -/
theorem direction_roundtrip (d : Direction) :
    Direction.deserialize d.serialize = some d := by
  cases d <;> rfl

/-- Operator round-trip for `u8` payloads. -/
theorem operator_roundtrip (op : Operator) (h : op.wf) :
    Operator.deserialize op.serialize = some op := by
  cases op with
  | List vec =>
      have hseq : decodeSeq SValue.asU8 (vec.map SValue.int) = some vec :=
        decodeSeq_map _ _ _ (fun a ha => by simp [SValue.asU8, h a ha])
      simp [Operator.serialize, Operator.deserialize, hseq]
  | Greater bound =>
      have hb : bound < 256 := h
      simp [Operator.serialize, Operator.deserialize, SValue.asU8, hb]
  | Less bound =>
      have hb : bound < 256 := h
      simp [Operator.serialize, Operator.deserialize, SValue.asU8, hb]

/-- ConditionVariant round-trip. -/
theorem conditionVariant_roundtrip (v : ConditionVariant) (h : v.wf) :
    ConditionVariant.deserialize v.serialize = some v := by
  cases v with
  | Directional dirs =>
      have hseq : decodeSeq Direction.deserialize (dirs.map Direction.serialize) = some dirs :=
        decodeSeq_map _ _ _ (fun d _ => direction_roundtrip d)
      simp [ConditionVariant.serialize, ConditionVariant.deserialize, hseq]
  | Count op =>
      simp [ConditionVariant.serialize, ConditionVariant.deserialize, operator_roundtrip op h]

/-- Condition round-trip. -/
theorem condition_roundtrip (c : Condition) (h : c.wf) :
    Condition.deserialize c.serialize = some c := by
  obtain ⟨variant, pattern, inverted⟩ := c
  obtain ⟨hv, hp⟩ := h
  simp [Condition.serialize, Condition.deserialize, SValue.asBool,
    conditionVariant_roundtrip variant hv, pattern_roundtrip pattern hp]

/-- Material round-trip. -/
theorem material_roundtrip (m : Material) (h : m.wf) :
    Material.deserialize m.serialize = some m := by
  obtain ⟨id, name, color⟩ := m
  obtain ⟨hid, hcol⟩ := h
  simp [Material.serialize, Material.deserialize, Material.visitFields, serializeId,
    SValue.asU32, SValue.asString, hid, materialColor_roundtrip color hcol]

/-- MaterialGroup round-trip. -/
theorem materialGroup_roundtrip (g : MaterialGroup) (h : g.wf) :
    MaterialGroup.deserialize g.serialize = some g := by
  obtain ⟨id, name, materials⟩ := g
  obtain ⟨hid, hmem⟩ := h
  have hseq : decodeSeq SValue.asU32 (materials.map serializeId) = some materials :=
    decodeSeq_map _ _ _ (fun a ha => by simp [serializeId, SValue.asU32, hmem a ha])
  simp [MaterialGroup.serialize, MaterialGroup.deserialize, MaterialGroup.visitFields,
    serializeId, SValue.asU32, SValue.asString, hid, hseq]

/-- Rule round-trip. -/
theorem rule_roundtrip (r : Rule) (h : r.wf) :
    Rule.deserialize r.serialize = some r := by
  obtain ⟨input, output, conditions⟩ := r
  obtain ⟨hin, hout, hconds⟩ := h
  have hseq : decodeSeq Condition.deserialize (conditions.map Condition.serialize)
      = some conditions :=
    decodeSeq_map _ _ _ (fun c hc => condition_roundtrip c (hconds c hc))
  simp [Rule.serialize, Rule.deserialize, Rule.visitFields, serializeId,
    SValue.asU32, hout, pattern_roundtrip input hin, hseq]

/-- C7: deserializing the serialization of a rule set whose handles fit in
`u32` and whose color components fit in `u8` (always true of the Rust types;
stated explicitly over `Nat`) recovers the rule set exactly — name,
materials with ids/names/colors, groups with ids/names/members, and rules
with input pattern, output handle and conditions. -/
theorem c7_ruleset_roundtrip (rs : Ruleset) (h : rs.wf) :
    Ruleset.deserialize rs.serialize = some rs := by
  obtain ⟨name, rules, materials, groups⟩ := rs
  obtain ⟨hr, hm, hgp⟩ := h
  have h1 : decodeSeq Rule.deserialize (rules.map Rule.serialize) = some rules :=
    decodeSeq_map _ _ _ (fun r hrr => rule_roundtrip r (hr r hrr))
  have h2 : decodeSeq Material.deserialize (materials.map Material.serialize)
      = some materials :=
    decodeSeq_map _ _ _ (fun m hmm => material_roundtrip m (hm m hmm))
  have h3 : decodeSeq MaterialGroup.deserialize (groups.map MaterialGroup.serialize)
      = some groups :=
    decodeSeq_map _ _ _ (fun g hgg => materialGroup_roundtrip g (hgp g hgg))
  simp [Ruleset.serialize, Ruleset.deserialize, h1, h2, h3]

/-- A concrete rule set exercising every serialized construct: both pattern
kinds, all three count operators, a directional condition, an inverted flag,
a group, and two materials. -/
def rsSerde : Ruleset :=
  { name := "Life",
    rules := [{ input := .Material 1, output := 2,
                conditions :=
                  [⟨.Count (.List [3]), .Group 7, false⟩,
                   ⟨.Directional [.North, .Southeast], .Material 2, true⟩,
                   ⟨.Count (.Greater 4), .Material 1, false⟩,
                   ⟨.Count (.Less 2), .Material 1, true⟩] }],
    materials := [⟨1, "Dead", ⟨0, 0, 0⟩⟩, ⟨2, "Alive", ⟨255, 255, 255⟩⟩],
    groups := [⟨7, "Live", [2]⟩] }

/-- C7 witness: the round-trip theorem applied to `rsSerde`. -/
theorem c7_ruleset_roundtrip_witness :
    Ruleset.deserialize rsSerde.serialize = some rsSerde :=
  c7_ruleset_roundtrip rsSerde (by decide)

end SimpleAutomata
